import Mathlib

/-!
Shallow embedding of the LearnWorlds client library: the OAuth2 token
authority (`src/oauth.ts`, class `OAuth2Client`) and the API gateway
(`src/client.ts`, class `LearnWorldsClient`), together with proofs of the
specification claims about them.

Conventions of the embedding:
* timestamps are absolute milliseconds (`Date.getTime()`), modelled as `Int`;
* the HTTP transport is an oracle: token-endpoint calls draw successive
  outcomes from a function `Nat → Except Unit TokenResponse` (indexed by the
  number of calls made so far), resource requests from
  `Nat → SendResult α`;
* JavaScript truthiness on optional strings is modelled explicitly
  (`jsTruthyOpt`): `undefined` and `""` are falsy.
-/

namespace LearnWorlds

/-- JS truthiness of an optional string: `undefined` and the empty string are
falsy.  The source tests credentials with `!this.accessToken`,
`if (response.refresh_token)`, `if (scope)` and the like, so "a token/value is
held (present)" throughout this development means: the field holds a
non-empty string. -/
def jsTruthyOpt : Option String → Bool
  | some s => decide (s ≠ "")
  | none => false

/-- JS `x || d` on an optional string `x` with a string default `d`: the
default is used when `x` is `undefined` or the empty string. -/
def jsOrStr (o : Option String) (d : String) : String :=
  match o with
  | some s => if s = "" then d else s
  | none => d

/-- Token endpoint response body (src/types.ts, `TokenResponse`):
`refresh_token` and `scope` are optional fields. -/
structure TokenResponse where
  access_token : String
  token_type : String
  expires_in : Int
  refresh_token : Option String := none
  scope : Option String := none
  deriving DecidableEq, Repr

/-- Credential state owned by `OAuth2Client` (oauth.ts 12-14):
`accessToken`, `refreshToken`, `tokenExpiresAt`. -/
structure OAuthState where
  accessToken : Option String := none
  refreshToken : Option String := none
  tokenExpiresAt : Option Int := none
  deriving DecidableEq, Repr

/-- The configuration fields the token-endpoint request bodies draw on
(src/types.ts, `LearnWorldsConfig`). -/
structure Config where
  clientId : String
  clientSecret : String
  deriving DecidableEq, Repr

/-- Local precondition failures of `OAuth2Client` (the `throw new Error(...)`
sites of oauth.ts) plus a marker for a failed wire call. -/
inductive OAuthError where
  | noAccessToken
  | noRefreshToken
  | noTokenToRevoke
  | httpError
  deriving DecidableEq, Repr

/-- `OAuth2Client.handleTokenResponse` (oauth.ts 204-221): store the returned
access token unconditionally; overwrite the stored refresh token only when
the response carries a truthy one; when `expires_in` is truthy (non-zero),
set the absolute expiry to now plus `expires_in` seconds.  The
`onTokenRefresh` persistence callback does not touch credential state and is
not modelled. -/
def handleTokenResponse (resp : TokenResponse) (now : Int) (st : OAuthState) : OAuthState :=
  let st1 := { st with accessToken := some resp.access_token }
  let st2 :=
    if jsTruthyOpt resp.refresh_token then { st1 with refreshToken := resp.refresh_token }
    else st1
  if resp.expires_in ≠ 0 then { st2 with tokenExpiresAt := some (now + resp.expires_in * 1000) }
  else st2

/-- Wire body of `exchangeAuthorizationCode` (oauth.ts 54-60), in
`URLSearchParams` insertion order. -/
def authorizationCodeParams (cfg : Config) (code redirectUri : String) :
    List (String × String) :=
  [("grant_type", "authorization_code"), ("code", code), ("redirect_uri", redirectUri),
   ("client_id", cfg.clientId), ("client_secret", cfg.clientSecret)]

/-- Wire body of `authenticateWithPassword` (oauth.ts 72-82): `scope` is
appended only when the caller supplied a truthy (non-empty) value. -/
def passwordParams (cfg : Config) (username password : String) (scope : Option String) :
    List (String × String) :=
  [("grant_type", "password"), ("username", username), ("password", password),
   ("client_id", cfg.clientId), ("client_secret", cfg.clientSecret)] ++
    (if jsTruthyOpt scope then [("scope", scope.getD "")] else [])

/-- Wire body of `authenticateWithClientCredentials` (oauth.ts 95-103):
`scope` is appended only when the caller supplied a truthy value. -/
def clientCredentialsParams (cfg : Config) (scope : Option String) :
    List (String × String) :=
  [("grant_type", "client_credentials"), ("client_id", cfg.clientId),
   ("client_secret", cfg.clientSecret)] ++
    (if jsTruthyOpt scope then [("scope", scope.getD "")] else [])

/-- Wire body of `refreshAccessToken` (oauth.ts 119-124), for the held
refresh token value. -/
def refreshParams (cfg : Config) (refreshTokenValue : String) : List (String × String) :=
  [("grant_type", "refresh_token"), ("refresh_token", refreshTokenValue),
   ("client_id", cfg.clientId), ("client_secret", cfg.clientSecret)]

/-- Hexadecimal digit character of a value below 16 (`F` beyond). -/
def hexDigit : Nat → Char
  | 0 => '0' | 1 => '1' | 2 => '2' | 3 => '3' | 4 => '4' | 5 => '5' | 6 => '6' | 7 => '7'
  | 8 => '8' | 9 => '9' | 10 => 'A' | 11 => 'B' | 12 => 'C' | 13 => 'D' | 14 => 'E' | _ => 'F'

/-- UTF-8 bytes of a code point. -/
def utf8Bytes (n : Nat) : List Nat :=
  if n < 128 then [n]
  else if n < 2048 then [192 + n / 64, 128 + n % 64]
  else if n < 65536 then [224 + n / 4096, 128 + n / 64 % 64, 128 + n % 64]
  else [240 + n / 262144, 128 + n / 4096 % 64, 128 + n / 64 % 64, 128 + n % 64]

/-- Serialization of one character by `URLSearchParams.toString()`
(`application/x-www-form-urlencoded`): a space becomes `+`, ASCII
alphanumerics and `*`, `-`, `.`, `_` stay themselves, and every other
character is percent-encoded byte by byte. -/
def encodeChar (c : Char) : List Char :=
  if c = ' ' then ['+']
  else if c.isAlphanum || c == '*' || c == '-' || c == '.' || c == '_' then [c]
  else (utf8Bytes c.toNat).flatMap (fun b => ['%', hexDigit (b / 16), hexDigit (b % 16)])

/-- Form-encoding of a string, as a character list. -/
def encodeStr (s : String) : List Char :=
  s.toList.flatMap encodeChar

/-- `URLSearchParams.toString()`: `k1=v1&k2=v2&...` with every key and value
form-encoded. -/
def encodeForm (ps : List (String × String)) : List Char :=
  List.intercalate ['&'] (ps.map fun p => encodeStr p.1 ++ '=' :: encodeStr p.2)

/-- Decidable "contains `needle` as a contiguous substring". -/
def containsSub (needle hay : List Char) : Bool :=
  decide (needle <:+: hay)

/-- Outcome of a single POST to the token endpoint. -/
abbrev TokenWireResult := Except Unit TokenResponse

/-- Oracle giving the outcome of each successive token-endpoint call. -/
abbrev TokenWire := Nat → TokenWireResult

/-- `OAuth2Client.exchangeAuthorizationCode` (oauth.ts 53-66): returns the
wire body it sends together with its outcome and the updated credential
state (install contract `handleTokenResponse` on success). -/
def exchangeAuthorizationCode (cfg : Config) (wire : TokenWireResult)
    (code redirectUri : String) (now : Int) (st : OAuthState) :
    List (String × String) × Except OAuthError TokenResponse × OAuthState :=
  (authorizationCodeParams cfg code redirectUri,
    match wire with
    | .error _ => (.error .httpError, st)
    | .ok resp => (.ok resp, handleTokenResponse resp now st))

/-- `OAuth2Client.authenticateWithPassword` (oauth.ts 71-88). -/
def authenticateWithPassword (cfg : Config) (wire : TokenWireResult)
    (username password : String) (scope : Option String) (now : Int) (st : OAuthState) :
    List (String × String) × Except OAuthError TokenResponse × OAuthState :=
  (passwordParams cfg username password scope,
    match wire with
    | .error _ => (.error .httpError, st)
    | .ok resp => (.ok resp, handleTokenResponse resp now st))

/-- `OAuth2Client.authenticateWithClientCredentials` (oauth.ts 94-109). -/
def authenticateWithClientCredentials (cfg : Config) (wire : TokenWireResult)
    (scope : Option String) (now : Int) (st : OAuthState) :
    List (String × String) × Except OAuthError TokenResponse × OAuthState :=
  (clientCredentialsParams cfg scope,
    match wire with
    | .error _ => (.error .httpError, st)
    | .ok resp => (.ok resp, handleTokenResponse resp now st))

/-- `OAuth2Client.refreshAccessToken` (oauth.ts 114-130): fails with
`noRefreshToken` when no truthy refresh token is held (no wire call is made);
otherwise consumes one token-endpoint call and installs a successful
response via `handleTokenResponse`.  `tIdx` counts token-endpoint calls made
so far; the returned index shows how many calls this operation performed. -/
def refreshAccessToken (cfg : Config) (tw : TokenWire) (tIdx : Nat) (now : Int)
    (st : OAuthState) : Except OAuthError TokenResponse × OAuthState × Nat :=
  if jsTruthyOpt st.refreshToken then
    match tw tIdx with
    | .error _ => (.error .httpError, st, tIdx + 1)
    | .ok resp => (.ok resp, handleTokenResponse resp now st, tIdx + 1)
  else (.error .noRefreshToken, st, tIdx)

/-- `OAuth2Client.getAccessToken` (oauth.ts 159-175): fails with
`noAccessToken` when no truthy access token is held.  When an expiry and a
truthy refresh token are both present and `now` is at or past the expiry
minus the 5-minute buffer (300000 ms), refreshes first and returns the then
current access token; otherwise returns the stored token unchanged. -/
def getAccessToken (cfg : Config) (tw : TokenWire) (tIdx : Nat) (now : Int)
    (st : OAuthState) : Except OAuthError String × OAuthState × Nat :=
  if jsTruthyOpt st.accessToken then
    let needRefresh :=
      match st.tokenExpiresAt with
      | some exp => jsTruthyOpt st.refreshToken && decide (now ≥ exp - 300000)
      | none => false
    if needRefresh then
      match refreshAccessToken cfg tw tIdx now st with
      | (.error e, st', tIdx') => (.error e, st', tIdx')
      | (.ok _, st', tIdx') => (.ok (st'.accessToken.getD ""), st', tIdx')
    else (.ok (st.accessToken.getD ""), st, tIdx)
  else (.error .noAccessToken, st, tIdx)

/-- `OAuth2Client.revokeToken` (oauth.ts 135-154).  `token || this.accessToken`
and the later `!token` both follow JS truthiness (an empty-string argument
counts as absent).  The clearing of `accessToken` and `tokenExpiresAt`
happens only after the wire call completed successfully, and only when no
truthy argument was given or the argument equals the held access token; the
refresh token is never touched. -/
def revokeToken (wire : Except Unit Unit) (token : Option String) (st : OAuthState) :
    Except OAuthError Unit × OAuthState :=
  let tokenToRevoke := if jsTruthyOpt token then token else st.accessToken
  if jsTruthyOpt tokenToRevoke then
    match wire with
    | .error _ => (.error .httpError, st)
    | .ok _ =>
      if ¬ jsTruthyOpt token ∨ token = st.accessToken then
        (.ok (), { st with accessToken := none, tokenExpiresAt := none })
      else (.ok (), st)
  else (.error .noTokenToRevoke, st)

/-- `OAuth2Client.isAuthenticated` (oauth.ts 180-182): `!!this.accessToken`. -/
def isAuthenticated (st : OAuthState) : Bool :=
  jsTruthyOpt st.accessToken

/-- Body of a failed HTTP response, as far as `handleError` inspects it:
`(error.response.data as { message?: string })?.message`. -/
structure RespBody where
  message : Option String := none
  deriving DecidableEq, Repr

/-- The received HTTP response attached to an axios error
(`error.response`): its status and its (possibly absent) body. -/
structure HttpResponse where
  status : Nat
  body : Option RespBody := none
  deriving DecidableEq, Repr

/-- Cause of a failed axios exchange, mirroring the three branches of
`handleError` (client.ts 89-124): a response was received
(`error.response`), the request was sent but nothing came back
(`error.request`), or the request was never sent.  Each carries the
underlying `error.message`. -/
inductive AxiosFailure where
  | withResponse (resp : HttpResponse) (errMessage : String)
  | network (errMessage : String)
  | setup (errMessage : String)
  deriving DecidableEq, Repr

/-- Payload of `LearnWorldsError.details`: either the raw body of a failed
response (`handleError`) or the `errors` array of a rejected envelope
(`makeRequest`). -/
inductive ErrDetails where
  | respBody (b : Option RespBody)
  | envErrors (e : List String)
  deriving DecidableEq, Repr

/-- `LearnWorldsError` (src/types.ts): the single normalized error shape the
gateway surfaces. -/
structure LWError where
  status : Option Nat := none
  code : String
  message : String
  details : Option ErrDetails := none
  deriving DecidableEq, Repr

/-- `LearnWorldsClient.handleError` (client.ts 85-127).  With a response:
status and raw body are recorded, the message is first computed as
`data?.message || error.message || 'API Error'`, and then the `switch` on
the status maps 401/403/404/422/429 to their fixed code *and* fixed message
(overwriting any server-provided message); any other status keeps code
`API_ERROR` and the fallback-chain message.  Without a response:
`NETWORK_ERROR` or `UNKNOWN_ERROR` as in the source. -/
def handleError : AxiosFailure → LWError
  | .withResponse resp m =>
    let base : LWError :=
      { status := some resp.status, code := "API_ERROR",
        message := jsOrStr (resp.body.bind RespBody.message) (jsOrStr (some m) "API Error"),
        details := some (.respBody resp.body) }
    if resp.status = 401 then
      { base with code := "UNAUTHORIZED", message := "Invalid API key or authentication failed" }
    else if resp.status = 403 then
      { base with code := "FORBIDDEN", message := "Access denied" }
    else if resp.status = 404 then
      { base with code := "NOT_FOUND", message := "Resource not found" }
    else if resp.status = 422 then
      { base with code := "VALIDATION_ERROR", message := "Validation failed" }
    else if resp.status = 429 then
      { base with code := "RATE_LIMIT", message := "Rate limit exceeded" }
    else base
  | .network _ =>
    { status := none, code := "NETWORK_ERROR",
      message := "Network error - unable to reach API", details := none }
  | .setup m =>
    { status := none, code := "UNKNOWN_ERROR",
      message := jsOrStr (some m) "Unknown error occurred", details := none }

/-- Response envelope of the resource API (src/types.ts, `ApiResponse<T>`). -/
structure Envelope (α : Type) where
  success : Bool
  data : α
  message : Option String := none
  errors : Option (List String) := none
  deriving DecidableEq, Repr

/-- Outcome of one physical resource-request exchange: either the transport
resolved (2xx) with an envelope, or it failed with an `AxiosFailure`. -/
inductive SendResult (α : Type) where
  | success (env : Envelope α)
  | failure (f : AxiosFailure)
  deriving DecidableEq, Repr

/-- An outgoing request as the interceptors see it: its `Authorization`
header, and the `_retry` marker the response interceptor stashes on it. -/
structure Request where
  auth : Option String := none
  retryFlag : Bool := false
  deriving DecidableEq, Repr

/-- The request interceptor (client.ts 38-50): try `getAccessToken`; on
success attach it as a bearer header; on failure send the request unchanged
(the error is swallowed). -/
def interceptRequest (cfg : Config) (tw : TokenWire) (tIdx : Nat) (now : Int)
    (st : OAuthState) (req : Request) : Request × OAuthState × Nat :=
  match getAccessToken cfg tw tIdx now st with
  | (.ok tok, st', tIdx') => ({ req with auth := some ("Bearer " ++ tok) }, st', tIdx')
  | (.error _, st', tIdx') => (req, st', tIdx')

/-- Condition `error.response?.status === 401` of the response interceptor. -/
def is401 : AxiosFailure → Bool
  | .withResponse resp _ => resp.status == 401
  | _ => false

/-- Result of running one logical request to completion: the outcome, the
final credential state, and the token-endpoint / resource-send call counters
(so the number of wire calls performed is observable). -/
structure RunOut (α : Type) where
  result : Except LWError (Envelope α)
  st : OAuthState
  tIdx : Nat
  sIdx : Nat
  deriving Repr

/-- One logical request through the axios instance of `LearnWorldsClient`:
request interceptor, physical send, response interceptor (client.ts 38-75).
On a 401 failure of a not-yet-retried request while a truthy refresh token
is held, the request is marked `_retry := true`, the token is refreshed and
re-read, the bearer header is overwritten and the same request is re-entered
into the pipeline (`this.http(originalRequest)` passes through both
interceptors again); if the refresh or the token re-read fails, the
*original* error is normalized and surfaced.  Any other failure is
normalized immediately.  `fuel` bounds the re-entries only to satisfy
termination; the theorems show the `_retry` flag makes any fuel ≥ 2
sufficient and equivalent. -/
def runRequest (cfg : Config) (tw : TokenWire) {α : Type} (sw : Nat → SendResult α) :
    Nat → Nat → Nat → Int → OAuthState → Request → Option (RunOut α)
  | 0, _, _, _, _, _ => none
  | fuel + 1, tIdx, sIdx, now, st, req =>
    let ir := interceptRequest cfg tw tIdx now st req
    let req1 := ir.1
    let st1 := ir.2.1
    let tIdx1 := ir.2.2
    match sw sIdx with
    | .success env => some ⟨.ok env, st1, tIdx1, sIdx + 1⟩
    | .failure f =>
      if is401 f && !req1.retryFlag && jsTruthyOpt st1.refreshToken then
        match refreshAccessToken cfg tw tIdx1 now st1 with
        | (.error _, st2, tIdx2) => some ⟨.error (handleError f), st2, tIdx2, sIdx + 1⟩
        | (.ok _, st2, tIdx2) =>
          match getAccessToken cfg tw tIdx2 now st2 with
          | (.error _, st3, tIdx3) => some ⟨.error (handleError f), st3, tIdx3, sIdx + 1⟩
          | (.ok tok, st3, tIdx3) =>
            runRequest cfg tw sw fuel tIdx3 (sIdx + 1) now st3
              { req1 with retryFlag := true, auth := some ("Bearer " ++ tok) }
      else some ⟨.error (handleError f), st1, tIdx1, sIdx + 1⟩

/-- Envelope unwrapping at the tail of `makeRequest` (client.ts 142-149): a
`success: false` envelope - regardless of the HTTP status, which was 2xx on
this path - is turned into an `API_ERROR` carrying the envelope's message
(or the fallback) and its `errors` as details; otherwise `data` is returned
unwrapped. -/
def unwrapEnvelope {α : Type} (env : Envelope α) : Except LWError α :=
  if env.success then .ok env.data
  else
    .error { status := none, code := "API_ERROR",
             message := jsOrStr env.message "API request failed",
             details := (env.errors.map ErrDetails.envErrors) }

/-- `LearnWorldsClient.makeRequest` (client.ts 129-150): issue a fresh
request (no bearer header attached yet, `_retry` unset) through the pipeline
and unwrap the envelope of a successful exchange. -/
def makeRequest (cfg : Config) (tw : TokenWire) {α : Type} (sw : Nat → SendResult α)
    (fuel tIdx sIdx : Nat) (now : Int) (st : OAuthState) :
    Option (Except LWError α × OAuthState × Nat × Nat) :=
  match runRequest cfg tw sw fuel tIdx sIdx now st { auth := none, retryFlag := false } with
  | none => none
  | some out =>
    some ((match out.result with
           | .error e => .error e
           | .ok env => unwrapEnvelope env), out.st, out.tIdx, out.sIdx)

/-! ### Helper lemmas about the install contract and truthiness -/

lemma jsTruthyOpt_some_of_ne {s : String} (h : s ≠ "") : jsTruthyOpt (some s) = true := by
  simp [jsTruthyOpt, h]

lemma jsTruthyOpt_none : jsTruthyOpt none = false := rfl

lemma handleTokenResponse_accessToken (resp : TokenResponse) (now : Int) (st : OAuthState) :
    (handleTokenResponse resp now st).accessToken = some resp.access_token := by
  simp only [handleTokenResponse]
  split <;> split <;> rfl

lemma handleTokenResponse_refreshToken_of_none (resp : TokenResponse) (now : Int)
    (st : OAuthState) (h : resp.refresh_token = none) :
    (handleTokenResponse resp now st).refreshToken = st.refreshToken := by
  simp only [handleTokenResponse, h, jsTruthyOpt]
  split <;> rfl

lemma handleTokenResponse_refreshToken_of_truthy (resp : TokenResponse) (now : Int)
    (st : OAuthState) (h : jsTruthyOpt resp.refresh_token = true) :
    (handleTokenResponse resp now st).refreshToken = resp.refresh_token := by
  simp only [handleTokenResponse, h, if_true]
  split <;> rfl

lemma refreshAccessToken_ok (cfg : Config) (tw : TokenWire) (tIdx : Nat) (now : Int)
    (st : OAuthState) (resp : TokenResponse) (hR : jsTruthyOpt st.refreshToken = true)
    (hw : tw tIdx = .ok resp) :
    refreshAccessToken cfg tw tIdx now st =
      (.ok resp, handleTokenResponse resp now st, tIdx + 1) := by
  simp [refreshAccessToken, hR, hw]

/-! ### Claim theorems about the token authority -/

/-- C3: for every token response installed by any of the four grant/refresh
operations, the returned access token is stored unconditionally, and the
stored refresh token is overwritten only if the response includes a (truthy)
`refresh_token`; a response omitting it leaves a previously held refresh
token unchanged.  In particular, authenticating with password (whose
response carries a refresh token) and then with client credentials (whose
response has none) keeps the refresh token from the first step. -/
theorem token_install_contract :
    (∀ resp now st, (handleTokenResponse resp now st).accessToken = some resp.access_token) ∧
    (∀ resp now st, resp.refresh_token = none →
      (handleTokenResponse resp now st).refreshToken = st.refreshToken) ∧
    (∀ resp now st, jsTruthyOpt resp.refresh_token = true →
      (handleTokenResponse resp now st).refreshToken = resp.refresh_token) ∧
    (∀ cfg resp code redirectUri now st,
      (exchangeAuthorizationCode cfg (.ok resp) code redirectUri now st).2 =
        (.ok resp, handleTokenResponse resp now st)) ∧
    (∀ cfg resp u p sc now st,
      (authenticateWithPassword cfg (.ok resp) u p sc now st).2 =
        (.ok resp, handleTokenResponse resp now st)) ∧
    (∀ cfg resp sc now st,
      (authenticateWithClientCredentials cfg (.ok resp) sc now st).2 =
        (.ok resp, handleTokenResponse resp now st)) ∧
    (∀ cfg tw tIdx now st resp, jsTruthyOpt st.refreshToken = true → tw tIdx = .ok resp →
      refreshAccessToken cfg tw tIdx now st =
        (.ok resp, handleTokenResponse resp now st, tIdx + 1)) ∧
    (∀ cfg resp1 resp2 u p sc1 sc2 now1 now2 st rt,
      resp1.refresh_token = some rt → rt ≠ "" → resp2.refresh_token = none →
      ((authenticateWithClientCredentials cfg (.ok resp2) sc2 now2
          (authenticateWithPassword cfg (.ok resp1) u p sc1 now1 st).2.2).2.2).refreshToken =
        some rt) := by
  refine ⟨handleTokenResponse_accessToken, handleTokenResponse_refreshToken_of_none,
    handleTokenResponse_refreshToken_of_truthy,
    fun _ _ _ _ _ _ => rfl, fun _ _ _ _ _ _ _ => rfl, fun _ _ _ _ _ => rfl,
    refreshAccessToken_ok, ?_⟩
  intro cfg resp1 resp2 u p sc1 sc2 now1 now2 st rt h1 hrt h2
  show (handleTokenResponse resp2 now2 (handleTokenResponse resp1 now1 st)).refreshToken = some rt
  rw [handleTokenResponse_refreshToken_of_none resp2 now2 _ h2,
    handleTokenResponse_refreshToken_of_truthy resp1 now1 st
      (by rw [h1]; exact jsTruthyOpt_some_of_ne hrt), h1]

/-- Witness for C3: concrete two-step password-then-client-credentials run
keeping the refresh token of the first response. -/
theorem token_install_contract_witness :
    ((authenticateWithClientCredentials ⟨"cid", "cs"⟩
        (.ok ⟨"tok2", "Bearer", 3600, none, none⟩) none 0
        (authenticateWithPassword ⟨"cid", "cs"⟩
          (.ok ⟨"tok1", "Bearer", 3600, some "rt1", none⟩) "u" "pw" none 0
          ⟨none, none, none⟩).2.2).2.2).refreshToken = some "rt1" :=
  token_install_contract.2.2.2.2.2.2.2 ⟨"cid", "cs"⟩
    ⟨"tok1", "Bearer", 3600, some "rt1", none⟩ ⟨"tok2", "Bearer", 3600, none, none⟩
    "u" "pw" none none 0 0 ⟨none, none, none⟩ "rt1" rfl (by decide) rfl

/-- C4: `getAccessToken` fails with `noAccessToken` when no access token is
held; when an expiry and a refresh token are both held and `now` is at or
past expiry minus the 5-minute buffer it performs exactly one refresh call
(the token-endpoint counter advances by one) and returns the updated access
token; when the expiry is more than 5 minutes away, or no expiry or no
refresh token is held, it returns the stored token with no refresh call. -/
theorem getAccessToken_contract :
    (∀ cfg tw tIdx now st, jsTruthyOpt st.accessToken = false →
      getAccessToken cfg tw tIdx now st = (.error .noAccessToken, st, tIdx)) ∧
    (∀ cfg tw tIdx now st a exp resp, st.accessToken = some a → a ≠ "" →
      st.tokenExpiresAt = some exp → jsTruthyOpt st.refreshToken = true →
      now ≥ exp - 300000 → tw tIdx = .ok resp →
      getAccessToken cfg tw tIdx now st =
        (.ok resp.access_token, handleTokenResponse resp now st, tIdx + 1)) ∧
    (∀ cfg tw tIdx now st a exp, st.accessToken = some a → a ≠ "" →
      st.tokenExpiresAt = some exp → now < exp - 300000 →
      getAccessToken cfg tw tIdx now st = (.ok a, st, tIdx)) ∧
    (∀ cfg tw tIdx now st a, st.accessToken = some a → a ≠ "" →
      (st.tokenExpiresAt = none ∨ jsTruthyOpt st.refreshToken = false) →
      getAccessToken cfg tw tIdx now st = (.ok a, st, tIdx)) := by
  refine ⟨?_, ?_, ?_, ?_⟩
  · intro cfg tw tIdx now st h
    simp [getAccessToken, h]
  · intro cfg tw tIdx now st a exp resp hA ha hE hR hnow hw
    have htr := jsTruthyOpt_some_of_ne ha
    rw [getAccessToken]
    simp only [hA, htr, hE, hR, if_true, Bool.true_and, ge_iff_le,
      decide_eq_true_eq]
    rw [if_pos hnow, refreshAccessToken_ok cfg tw tIdx now st resp hR hw]
    simp [handleTokenResponse_accessToken]
  · intro cfg tw tIdx now st a exp hA ha hE hnow
    have htr := jsTruthyOpt_some_of_ne ha
    rw [getAccessToken]
    simp only [hA, htr, hE, if_true, ge_iff_le, decide_eq_true_eq]
    rw [if_neg]
    · rfl
    · simp only [Bool.and_eq_true, decide_eq_true_eq]
      rintro ⟨-, h⟩
      omega
  · intro cfg tw tIdx now st a hA ha hcase
    have htr := jsTruthyOpt_some_of_ne ha
    rw [getAccessToken]
    rcases hcase with hE | hR
    · simp [hA, htr, hE]
    · simp [hA, htr, hR]
      split <;> (intro h; simp at h)

/-- Witness for C4: a token expiring within the buffer triggers exactly one
refresh and the refreshed token is returned. -/
theorem getAccessToken_contract_witness :
    getAccessToken ⟨"cid", "cs"⟩ (fun _ => .ok ⟨"newTok", "Bearer", 0, none, none⟩) 0 1000
        ⟨some "oldTok", some "rt", some 2000⟩ =
      (.ok "newTok",
        handleTokenResponse ⟨"newTok", "Bearer", 0, none, none⟩ 1000
          ⟨some "oldTok", some "rt", some 2000⟩, 1) :=
  getAccessToken_contract.2.1 ⟨"cid", "cs"⟩ (fun _ => .ok ⟨"newTok", "Bearer", 0, none, none⟩)
    0 1000 ⟨some "oldTok", some "rt", some 2000⟩ "oldTok" 2000
    ⟨"newTok", "Bearer", 0, none, none⟩ rfl (by decide) rfl (by decide) (by omega) rfl

/-- C5 counterexample: `revokeToken("")` with held access token `"abc"` - an
argument different from the held token - nevertheless clears the access
token and its expiry, because the empty string is falsy in both
`token || this.accessToken` and `!token`.  The claim's "an argument
different from the held access token leaves local credential state entirely
unchanged" is therefore false at this input. -/
theorem revokeToken_empty_arg_counterexample :
    revokeToken (.ok ()) (some "") ⟨some "abc", some "r", some 5⟩ =
      (.ok (), ⟨none, some "r", none⟩) ∧
    some "" ≠ some "abc" ∧
    (⟨none, some "r", none⟩ : OAuthState) ≠ ⟨some "abc", some "r", some 5⟩ ∧
    isAuthenticated ⟨none, some "r", none⟩ = false :=
  ⟨rfl, by decide, by decide, rfl⟩

/-- C5 (amended): `revokeToken` with no argument, or with an argument equal
to the held access token, clears the held access token and its expiry
(making `isAuthenticated` false) while leaving the refresh token untouched;
with a *non-empty* argument different from the held access token it leaves
local state entirely unchanged (an empty-string argument behaves like no
argument); and it fails with `noTokenToRevoke` when no argument is given
and no access token is held. -/
theorem revokeToken_contract :
    (∀ st a, st.accessToken = some a → a ≠ "" →
      revokeToken (.ok ()) none st =
        (.ok (), { st with accessToken := none, tokenExpiresAt := none })) ∧
    (∀ st a, st.accessToken = some a → a ≠ "" →
      revokeToken (.ok ()) (some a) st =
        (.ok (), { st with accessToken := none, tokenExpiresAt := none })) ∧
    (∀ st : OAuthState,
      isAuthenticated { st with accessToken := none, tokenExpiresAt := none } = false ∧
      ({ st with accessToken := none, tokenExpiresAt := none } : OAuthState).refreshToken =
        st.refreshToken) ∧
    (∀ st t, t ≠ "" → some t ≠ st.accessToken →
      revokeToken (.ok ()) (some t) st = (.ok (), st)) ∧
    (∀ st, jsTruthyOpt st.accessToken = false →
      revokeToken (.ok ()) none st = (.error .noTokenToRevoke, st)) := by
  refine ⟨?_, ?_, ?_, ?_, ?_⟩
  · intro st a hA ha
    simp [revokeToken, hA, jsTruthyOpt_none, jsTruthyOpt_some_of_ne ha]
  · intro st a hA ha
    simp [revokeToken, hA, jsTruthyOpt_some_of_ne ha]
  · intro st
    exact ⟨rfl, rfl⟩
  · intro st t ht hne
    simp [revokeToken, jsTruthyOpt_some_of_ne ht, hne]
  · intro st h
    simp [revokeToken, jsTruthyOpt_none, h]

/-- Witness for C5 (amended): revoking with no argument clears the held
token but keeps the refresh token; revoking a different non-empty token
changes nothing. -/
theorem revokeToken_contract_witness :
    revokeToken (.ok ()) none ⟨some "abc", some "r", some 5⟩ =
      (.ok (), ⟨none, some "r", none⟩) ∧
    revokeToken (.ok ()) (some "other") ⟨some "abc", some "r", some 5⟩ =
      (.ok (), ⟨some "abc", some "r", some 5⟩) ∧
    revokeToken (.ok ()) none ⟨none, some "r", none⟩ =
      (.error .noTokenToRevoke, ⟨none, some "r", none⟩) :=
  ⟨revokeToken_contract.1 ⟨some "abc", some "r", some 5⟩ "abc" rfl (by decide),
   revokeToken_contract.2.2.2.1 ⟨some "abc", some "r", some 5⟩ "other" (by decide) (by decide),
   revokeToken_contract.2.2.2.2 ⟨none, some "r", none⟩ rfl⟩

/-- C10: `revokeToken` is atomic with respect to local credential state:
when the wire call to the revocation endpoint fails, the error propagates
and the access token, refresh token and expiry are returned exactly as they
were - the clearing happens only after a successful wire call. -/
theorem revokeToken_atomic :
    ∀ t st, jsTruthyOpt (if jsTruthyOpt t then t else st.accessToken) = true →
      revokeToken (.error ()) t st = (.error .httpError, st) := by
  intro t st h
  simp only [revokeToken]
  rw [if_pos h]

/-- Witness for C10: a failed revocation wire call leaves state intact. -/
theorem revokeToken_atomic_witness :
    revokeToken (.error ()) none ⟨some "abc", some "r", some 5⟩ =
      (.error .httpError, ⟨some "abc", some "r", some 5⟩) :=
  revokeToken_atomic none ⟨some "abc", some "r", some 5⟩ (by decide)

/-- C2 counterexample: the claim says the per-status default message is
"overridden by any server-provided message", but `handleError` overwrites
the message *after* the fallback chain for the mapped statuses: a 404
response whose body carries the message "course gone" is normalized with
the fixed default "Resource not found".  Moreover for an unmapped status
with no server message the claim's listed default would be "API Error",
yet the transport error's own message "boom" is used. -/
theorem handleError_counterexample :
    handleError (.withResponse ⟨404, some ⟨some "course gone"⟩⟩ "boom") =
      { status := some 404, code := "NOT_FOUND", message := "Resource not found",
        details := some (.respBody (some ⟨some "course gone"⟩)) } ∧
    "Resource not found" ≠ "course gone" ∧
    (handleError (.withResponse ⟨500, none⟩ "boom")).message = "boom" ∧
    "boom" ≠ "API Error" :=
  ⟨rfl, by decide, rfl, by decide⟩

/-- C2 (amended): for a failed request with an HTTP response, `handleError`
records the status and the raw body as details, and maps the status to a
code exactly as listed (401 UNAUTHORIZED, 403 FORBIDDEN, 404 NOT_FOUND,
422 VALIDATION_ERROR, 429 RATE_LIMIT, otherwise API_ERROR); for the five
mapped statuses the message is *always* the fixed default, ignoring any
server-provided message, while for any other status the message is the
server-provided message when non-empty, else the transport error's own
message when non-empty, else "API Error". -/
theorem handleError_contract :
    (∀ resp m, (handleError (.withResponse resp m)).status = some resp.status ∧
      (handleError (.withResponse resp m)).details = some (.respBody resp.body)) ∧
    (∀ resp m, resp.status = 401 →
      handleError (.withResponse resp m) =
        { status := some 401, code := "UNAUTHORIZED",
          message := "Invalid API key or authentication failed",
          details := some (.respBody resp.body) }) ∧
    (∀ resp m, resp.status = 403 →
      handleError (.withResponse resp m) =
        { status := some 403, code := "FORBIDDEN", message := "Access denied",
          details := some (.respBody resp.body) }) ∧
    (∀ resp m, resp.status = 404 →
      handleError (.withResponse resp m) =
        { status := some 404, code := "NOT_FOUND", message := "Resource not found",
          details := some (.respBody resp.body) }) ∧
    (∀ resp m, resp.status = 422 →
      handleError (.withResponse resp m) =
        { status := some 422, code := "VALIDATION_ERROR", message := "Validation failed",
          details := some (.respBody resp.body) }) ∧
    (∀ resp m, resp.status = 429 →
      handleError (.withResponse resp m) =
        { status := some 429, code := "RATE_LIMIT", message := "Rate limit exceeded",
          details := some (.respBody resp.body) }) ∧
    (∀ resp m, resp.status ≠ 401 → resp.status ≠ 403 → resp.status ≠ 404 →
      resp.status ≠ 422 → resp.status ≠ 429 →
      handleError (.withResponse resp m) =
        { status := some resp.status, code := "API_ERROR",
          message := jsOrStr (resp.body.bind RespBody.message) (jsOrStr (some m) "API Error"),
          details := some (.respBody resp.body) }) := by
  refine ⟨?_, ?_, ?_, ?_, ?_, ?_, ?_⟩
  · intro resp m
    simp only [handleError]
    split_ifs <;> exact ⟨rfl, rfl⟩
  all_goals intro resp m
  · intro h; simp [handleError, h]
  · intro h; simp [handleError, h]
  · intro h; simp [handleError, h]
  · intro h; simp [handleError, h]
  · intro h; simp [handleError, h]
  · intro h1 h2 h3 h4 h5
    simp [handleError, h1, h2, h3, h4, h5]

/-- Witness for C2 (amended): a mapped status with a server message keeps
the fixed default; an unmapped status uses the server message. -/
theorem handleError_contract_witness :
    handleError (.withResponse ⟨404, some ⟨some "course gone"⟩⟩ "boom") =
      { status := some 404, code := "NOT_FOUND", message := "Resource not found",
        details := some (.respBody (some ⟨some "course gone"⟩)) } ∧
    handleError (.withResponse ⟨500, some ⟨some "server said so"⟩⟩ "boom") =
      { status := some 500, code := "API_ERROR", message := "server said so",
        details := some (.respBody (some ⟨some "server said so"⟩)) } :=
  ⟨handleError_contract.2.2.2.1 ⟨404, some ⟨some "course gone"⟩⟩ "boom" rfl,
   by
    have h := handleError_contract.2.2.2.2.2.2 ⟨500, some ⟨some "server said so"⟩⟩ "boom"
      (by decide) (by decide) (by decide) (by decide) (by decide)
    simpa [jsOrStr] using h⟩

/-! ### Helper lemmas about the gateway pipeline -/

lemma refreshAccessToken_err (cfg : Config) (tw : TokenWire) (tIdx : Nat) (now : Int)
    (st : OAuthState) (hR : jsTruthyOpt st.refreshToken = true) (hw : tw tIdx = .error ()) :
    refreshAccessToken cfg tw tIdx now st = (.error .httpError, st, tIdx + 1) := by
  simp [refreshAccessToken, hR, hw]

lemma handleTokenResponse_expiry_of_zero (resp : TokenResponse) (now : Int) (st : OAuthState)
    (h : resp.expires_in = 0) :
    (handleTokenResponse resp now st).tokenExpiresAt = st.tokenExpiresAt := by
  simp only [handleTokenResponse, h]
  simp only [ne_eq, not_true_eq_false, if_false]
  split <;> rfl

lemma getAccessToken_noExpiry (cfg : Config) (tw : TokenWire) (tIdx : Nat) (now : Int)
    (st : OAuthState) (hE : st.tokenExpiresAt = none) :
    getAccessToken cfg tw tIdx now st =
      ((if jsTruthyOpt st.accessToken then .ok (st.accessToken.getD "")
        else .error .noAccessToken), st, tIdx) := by
  simp only [getAccessToken, hE]
  split <;> rfl

lemma interceptRequest_noExpiry (cfg : Config) (tw : TokenWire) (tIdx : Nat) (now : Int)
    (st : OAuthState) (req : Request) (hE : st.tokenExpiresAt = none) :
    interceptRequest cfg tw tIdx now st req =
      ((if jsTruthyOpt st.accessToken then
          { req with auth := some ("Bearer " ++ st.accessToken.getD "") } else req),
        st, tIdx) := by
  unfold interceptRequest
  rw [getAccessToken_noExpiry cfg tw tIdx now st hE]
  by_cases h : jsTruthyOpt st.accessToken <;> simp [h]

lemma interceptRequest_retryFlag (cfg : Config) (tw : TokenWire) (tIdx : Nat) (now : Int)
    (st : OAuthState) (req : Request) :
    (interceptRequest cfg tw tIdx now st req).1.retryFlag = req.retryFlag := by
  unfold interceptRequest
  rcases h : getAccessToken cfg tw tIdx now st with ⟨res, st', tIdx'⟩
  cases res <;> simp [h]

/-- A request already carrying the `_retry` marker is never retried again:
its single exchange is either returned or normalized. -/
lemma runRequest_retried {α : Type} (cfg : Config) (tw : TokenWire) (sw : Nat → SendResult α)
    (k tIdx sIdx : Nat) (now : Int) (st : OAuthState) (req : Request)
    (hreq : req.retryFlag = true) :
    runRequest cfg tw sw (k + 1) tIdx sIdx now st req =
      some ⟨(match sw sIdx with
             | .success env => .ok env
             | .failure f => .error (handleError f)),
            (interceptRequest cfg tw tIdx now st req).2.1,
            (interceptRequest cfg tw tIdx now st req).2.2, sIdx + 1⟩ := by
  have hflag := interceptRequest_retryFlag cfg tw tIdx now st req
  rw [runRequest]
  rcases hs : sw sIdx with env | f
  · rfl
  · simp [hflag, hreq]

/-- C6: when a request fails with 401 (a refresh token being held, the
request not yet retried) and the refresh attempt itself fails on the wire,
the caller receives the normalized form of the *original* 401 error, with
the credential state unchanged. -/
theorem retry_refresh_failure_surfaces_original :
    ∀ (α : Type) (cfg : Config) (tw : TokenWire) (sw : Nat → SendResult α)
      (fuel tIdx sIdx : Nat) (now : Int) (st : OAuthState) (r : String)
      (b : Option RespBody) (m : String),
      1 ≤ fuel → st.tokenExpiresAt = none → st.refreshToken = some r → r ≠ "" →
      tw tIdx = .error () → sw sIdx = .failure (.withResponse ⟨401, b⟩ m) →
      runRequest cfg tw sw fuel tIdx sIdx now st ⟨none, false⟩ =
        some ⟨.error (handleError (.withResponse ⟨401, b⟩ m)), st, tIdx + 1, sIdx + 1⟩ := by
  intro α cfg tw sw fuel tIdx sIdx now st r b m hf hE hR hr hw hs
  obtain ⟨k, rfl⟩ : ∃ k, fuel = k + 1 := ⟨fuel - 1, by omega⟩
  have hR' : jsTruthyOpt st.refreshToken = true := by
    rw [hR]; exact jsTruthyOpt_some_of_ne hr
  rw [runRequest, interceptRequest_noExpiry cfg tw tIdx now st ⟨none, false⟩ hE, hs]
  simp only [is401, beq_self_eq_true, Bool.true_and, apply_ite Request.retryFlag, ite_self,
    Bool.not_false, hR', Bool.and_true, Bool.and_self, if_true]
  rw [refreshAccessToken_err cfg tw tIdx now st hR' hw]

/-- Witness for C6: concrete 401 response, failing refresh wire call; the
surfaced error is the normalized original 401. -/
theorem retry_refresh_failure_surfaces_original_witness :
    runRequest ⟨"cid", "cs"⟩ (fun _ => .error ())
        (fun _ => SendResult.failure (α := Nat) (.withResponse ⟨401, none⟩ "boom")) 2 0 0 0
        ⟨some "tok", some "rt", none⟩ ⟨none, false⟩ =
      some ⟨.error (handleError (.withResponse ⟨401, none⟩ "boom")),
            ⟨some "tok", some "rt", none⟩, 1, 1⟩ :=
  retry_refresh_failure_surfaces_original Nat ⟨"cid", "cs"⟩ (fun _ => .error ())
    (fun _ => SendResult.failure (.withResponse ⟨401, none⟩ "boom")) 2 0 0 0
    ⟨some "tok", some "rt", none⟩ "rt" none "boom"
    (by omega) rfl rfl (by decide) rfl rfl

/-- C7: for a request whose transport exchange succeeds, a `success: false`
envelope - even though the HTTP status was 2xx on this path - is rejected
with code `API_ERROR`, the envelope's message (or the generic fallback when
it carries none) and the envelope's `errors` as details; a `success: true`
envelope has its `data` returned unwrapped. -/
theorem envelope_unwrapping :
    ∀ (α : Type) (cfg : Config) (tw : TokenWire) (sw : Nat → SendResult α)
      (fuel tIdx sIdx : Nat) (now : Int) (st : OAuthState) (env : Envelope α),
      1 ≤ fuel → sw sIdx = .success env →
      (∃ st' tIdx', makeRequest cfg tw sw fuel tIdx sIdx now st =
        some (unwrapEnvelope env, st', tIdx', sIdx + 1)) ∧
      (env.success = true → unwrapEnvelope env = .ok env.data) ∧
      (env.success = false → unwrapEnvelope env =
        .error { status := none, code := "API_ERROR",
                 message := jsOrStr env.message "API request failed",
                 details := env.errors.map ErrDetails.envErrors }) := by
  intro α cfg tw sw fuel tIdx sIdx now st env hf hs
  obtain ⟨k, rfl⟩ : ∃ k, fuel = k + 1 := ⟨fuel - 1, by omega⟩
  refine ⟨?_, ?_, ?_⟩
  · refine ⟨(interceptRequest cfg tw tIdx now st ⟨none, false⟩).2.1,
      (interceptRequest cfg tw tIdx now st ⟨none, false⟩).2.2, ?_⟩
    rw [makeRequest, runRequest, hs]
  · intro h
    simp [unwrapEnvelope, h]
  · intro h
    simp [unwrapEnvelope, h]

/-- Witness for C7: a `success: false` envelope under HTTP 2xx is rejected
with `API_ERROR` and the envelope's message. -/
theorem envelope_unwrapping_witness :
    (∃ st' tIdx', makeRequest ⟨"cid", "cs"⟩ (fun _ => .error ())
        (fun _ => SendResult.success (⟨false, 7, some "bad input", some ["e1"]⟩ : Envelope Nat))
        1 0 0 0 ⟨none, none, none⟩ =
      some (unwrapEnvelope (⟨false, 7, some "bad input", some ["e1"]⟩ : Envelope Nat),
        st', tIdx', 1)) ∧
    unwrapEnvelope (⟨false, 7, some "bad input", some ["e1"]⟩ : Envelope Nat) =
      .error { status := none, code := "API_ERROR", message := "bad input",
               details := some (.envErrors ["e1"]) } := by
  have h := envelope_unwrapping Nat ⟨"cid", "cs"⟩ (fun _ => .error ())
    (fun _ => SendResult.success (⟨false, 7, some "bad input", some ["e1"]⟩ : Envelope Nat))
    1 0 0 0 ⟨none, none, none⟩ ⟨false, 7, some "bad input", some ["e1"]⟩ (by omega) rfl
  refine ⟨h.1, ?_⟩
  rw [h.2.2 rfl]
  rfl

/-- C1: at most one automatic retry per logical request.  First conjunct:
with any fuel ≥ 2 the pipeline terminates having performed at most two
physical sends (the re-entered request carries `_retry := true`, which
blocks any further retry, so extra fuel is never consumed).  Second
conjunct: a request that fails with 401 while a refresh token is held and
that has not been retried is resent once after a successful refresh, and
when the resent request fails with 401 again that second failure is
surfaced normalized - for every fuel ≥ 2, with exactly two sends and one
token-endpoint call. -/
theorem gateway_retries_at_most_once :
    (∀ (α : Type) (cfg : Config) (tw : TokenWire) (sw : Nat → SendResult α)
        (fuel tIdx sIdx : Nat) (now : Int) (st : OAuthState) (req : Request), 2 ≤ fuel →
      ∃ out : RunOut α, runRequest cfg tw sw fuel tIdx sIdx now st req = some out ∧
        out.sIdx ≤ sIdx + 2) ∧
    (∀ (α : Type) (cfg : Config) (tw : TokenWire) (sw : Nat → SendResult α)
        (fuel tIdx sIdx : Nat) (now : Int) (st : OAuthState) (a r : String)
        (resp : TokenResponse) (b1 b2 : Option RespBody) (m1 m2 : String),
      2 ≤ fuel →
      st.accessToken = some a → a ≠ "" → st.tokenExpiresAt = none →
      st.refreshToken = some r → r ≠ "" →
      tw tIdx = .ok resp → resp.access_token ≠ "" → resp.expires_in = 0 →
      sw sIdx = .failure (.withResponse ⟨401, b1⟩ m1) →
      sw (sIdx + 1) = .failure (.withResponse ⟨401, b2⟩ m2) →
      runRequest cfg tw sw fuel tIdx sIdx now st ⟨none, false⟩ =
        some ⟨.error (handleError (.withResponse ⟨401, b2⟩ m2)),
              handleTokenResponse resp now st, tIdx + 1, sIdx + 2⟩) := by
  constructor
  · intro α cfg tw sw fuel tIdx sIdx now st req hf
    obtain ⟨k, rfl⟩ : ∃ k, fuel = k + 2 := ⟨fuel - 2, by omega⟩
    rw [runRequest]
    rcases hs : sw sIdx with env | f
    · exact ⟨_, rfl, by dsimp only; omega⟩
    · dsimp only
      split
      · rcases hr : refreshAccessToken cfg tw
            (interceptRequest cfg tw tIdx now st req).2.2 now
            (interceptRequest cfg tw tIdx now st req).2.1 with ⟨e2 | resp2, st2, tIdx2⟩
        · exact ⟨_, rfl, by dsimp only; omega⟩
        · dsimp only
          rcases hg : getAccessToken cfg tw tIdx2 now st2 with ⟨e3 | tok, st3, tIdx3⟩
          · exact ⟨_, rfl, by dsimp only; omega⟩
          · dsimp only
            rw [runRequest_retried cfg tw sw k tIdx3 (sIdx + 1) now st3 _ rfl]
            exact ⟨_, rfl, by dsimp only; omega⟩
      · exact ⟨_, rfl, by dsimp only; omega⟩
  · intro α cfg tw sw fuel tIdx sIdx now st a r resp b1 b2 m1 m2 hf hA ha hE hR hr hw hra
      hei hs0 hs1
    obtain ⟨k, rfl⟩ : ∃ k, fuel = k + 2 := ⟨fuel - 2, by omega⟩
    have htra : jsTruthyOpt st.accessToken = true := by
      rw [hA]; exact jsTruthyOpt_some_of_ne ha
    have hR' : jsTruthyOpt st.refreshToken = true := by
      rw [hR]; exact jsTruthyOpt_some_of_ne hr
    have hE2 : (handleTokenResponse resp now st).tokenExpiresAt = none := by
      rw [handleTokenResponse_expiry_of_zero resp now st hei, hE]
    have hA2 : (handleTokenResponse resp now st).accessToken = some resp.access_token :=
      handleTokenResponse_accessToken resp now st
    have htra2 : jsTruthyOpt (handleTokenResponse resp now st).accessToken = true := by
      rw [hA2]; exact jsTruthyOpt_some_of_ne hra
    rw [runRequest, interceptRequest_noExpiry cfg tw tIdx now st ⟨none, false⟩ hE, htra]
    dsimp only
    rw [hs0]
    simp only [is401, beq_self_eq_true, Bool.true_and, Bool.not_false, hR', Bool.and_self,
      if_true]
    rw [refreshAccessToken_ok cfg tw tIdx now st resp hR' hw]
    dsimp only
    rw [getAccessToken_noExpiry cfg tw (tIdx + 1) now _ hE2, htra2, hA2]
    simp only [eq_self_iff_true, if_true, Option.getD_some]
    rw [runRequest_retried cfg tw sw k (tIdx + 1) (sIdx + 1) now
        (handleTokenResponse resp now st)
        { auth := some ("Bearer " ++ resp.access_token), retryFlag := true } rfl]
    rw [interceptRequest_noExpiry cfg tw (tIdx + 1) now _ _ hE2, hs1]

/-- Witness for C1: two consecutive 401 failures with a successful refresh
in between surface the second normalized 401 after exactly two sends and
one token-endpoint call. -/
theorem gateway_retries_at_most_once_witness :
    runRequest ⟨"cid", "cs"⟩ (fun _ => .ok ⟨"newTok", "Bearer", 0, none, none⟩)
        (fun _ => SendResult.failure (α := Nat) (.withResponse ⟨401, none⟩ "boom")) 2 0 0 0
        ⟨some "oldTok", some "rt", none⟩ ⟨none, false⟩ =
      some ⟨.error (handleError (.withResponse ⟨401, none⟩ "boom")),
            handleTokenResponse ⟨"newTok", "Bearer", 0, none, none⟩ 0
              ⟨some "oldTok", some "rt", none⟩, 1, 2⟩ :=
  gateway_retries_at_most_once.2 Nat ⟨"cid", "cs"⟩
    (fun _ => .ok ⟨"newTok", "Bearer", 0, none, none⟩)
    (fun _ => SendResult.failure (.withResponse ⟨401, none⟩ "boom")) 2 0 0 0
    ⟨some "oldTok", some "rt", none⟩ "oldTok" "rt" ⟨"newTok", "Bearer", 0, none, none⟩
    none none "boom" "boom" (by omega) rfl (by decide) rfl rfl (by decide) rfl (by decide)
    rfl rfl rfl

lemma unwrapEnvelope_ok {α : Type} {env : Envelope α} {d : α}
    (h : unwrapEnvelope env = .ok d) : env.success = true ∧ d = env.data := by
  by_cases hs : env.success
  · refine ⟨hs, ?_⟩
    rw [unwrapEnvelope, if_pos hs] at h
    exact (Except.ok.inj h).symm
  · rw [unwrapEnvelope, if_neg hs] at h
    simp at h

lemma makeRequest_eq {α : Type} (cfg : Config) (tw : TokenWire) (sw : Nat → SendResult α)
    (fuel tIdx sIdx : Nat) (now : Int) (st : OAuthState) :
    makeRequest cfg tw sw fuel tIdx sIdx now st =
      (runRequest cfg tw sw fuel tIdx sIdx now st ⟨none, false⟩).map
        (fun out => ((match out.result with
           | .error e => .error e
           | .ok env => unwrapEnvelope env), out.st, out.tIdx, out.sIdx)) := by
  unfold makeRequest
  rcases runRequest cfg tw sw fuel tIdx sIdx now st ⟨none, false⟩ with _ | out <;> rfl

/-- C9: the request interceptor first attempts `getAccessToken`; on success
the token is attached as a `Bearer` credential header, and on failure the
request is sent completely unchanged - in particular still without an
`Authorization` header when it had none - and no error is surfaced (the
interceptor's type is total).  This is the only swallowing in the pipeline:
a request that completes with a success value must have received a
transport success carrying a `success: true` envelope whose `data` is the
returned value - no failure is ever converted into a success. -/
theorem auth_header_attachment :
    (∀ (cfg : Config) (tw : TokenWire) (tIdx : Nat) (now : Int) (st : OAuthState)
        (req : Request) (e : OAuthError) (st' : OAuthState) (tIdx' : Nat),
      getAccessToken cfg tw tIdx now st = (.error e, st', tIdx') →
      interceptRequest cfg tw tIdx now st req = (req, st', tIdx')) ∧
    (∀ (cfg : Config) (tw : TokenWire) (tIdx : Nat) (now : Int) (st : OAuthState)
        (req : Request) (tok : String) (st' : OAuthState) (tIdx' : Nat),
      getAccessToken cfg tw tIdx now st = (.ok tok, st', tIdx') →
      interceptRequest cfg tw tIdx now st req =
        ({ req with auth := some ("Bearer " ++ tok) }, st', tIdx')) ∧
    (∀ (α : Type) (cfg : Config) (tw : TokenWire) (sw : Nat → SendResult α)
        (fuel tIdx sIdx : Nat) (now : Int) (st : OAuthState) (d : α)
        (st' : OAuthState) (tIdx' sIdx' : Nat),
      makeRequest cfg tw sw fuel tIdx sIdx now st = some (.ok d, st', tIdx', sIdx') →
      ∃ env : Envelope α, (sw sIdx = .success env ∨ sw (sIdx + 1) = .success env) ∧
        env.success = true ∧ d = env.data) := by
  refine ⟨?_, ?_, ?_⟩
  · intro cfg tw tIdx now st req e st' tIdx' h
    unfold interceptRequest
    rw [h]
  · intro cfg tw tIdx now st req tok st' tIdx' h
    unfold interceptRequest
    rw [h]
  · intro α cfg tw sw fuel tIdx sIdx now st d st' tIdx' sIdx' h
    rw [makeRequest_eq] at h
    cases fuel with
    | zero =>
      rw [runRequest] at h
      simp at h
    | succ k =>
      rw [runRequest] at h
      rcases hs : sw sIdx with env | f
      all_goals rw [hs] at h
      · dsimp only at h
        simp only [Option.map_some', Option.some.injEq, Prod.mk.injEq] at h
        obtain ⟨h1, -, -, -⟩ := h
        obtain ⟨hsucc, hdata⟩ := unwrapEnvelope_ok h1
        exact ⟨env, Or.inl rfl, hsucc, hdata⟩
      · dsimp only at h
        split at h
        · rcases hrf : refreshAccessToken cfg tw
              (interceptRequest cfg tw tIdx now st ⟨none, false⟩).2.2 now
              (interceptRequest cfg tw tIdx now st ⟨none, false⟩).2.1
            with ⟨e2 | resp2, st2, tIdx2⟩
          all_goals rw [hrf] at h
          · dsimp only at h
            simp at h
          · dsimp only at h
            rcases hg : getAccessToken cfg tw tIdx2 now st2 with ⟨e3 | tok, st3, tIdx3⟩
            all_goals rw [hg] at h
            · dsimp only at h
              simp at h
            · dsimp only at h
              cases k with
              | zero =>
                rw [runRequest] at h
                simp at h
              | succ k2 =>
                rw [runRequest_retried cfg tw sw k2 tIdx3 (sIdx + 1) now st3 _ rfl] at h
                rcases hs1 : sw (sIdx + 1) with env1 | f1
                all_goals rw [hs1] at h
                · dsimp only at h
                  simp only [Option.map_some', Option.some.injEq, Prod.mk.injEq] at h
                  obtain ⟨h1, -, -, -⟩ := h
                  obtain ⟨hsucc, hdata⟩ := unwrapEnvelope_ok h1
                  exact ⟨env1, Or.inr rfl, hsucc, hdata⟩
                · dsimp only at h
                  simp at h
        · simp at h

/-- Witness for C9: a failing `getAccessToken` (empty credential state)
leaves the outgoing request untouched, and a successful exchange's
unwrapped value comes from the transport envelope. -/
theorem auth_header_attachment_witness :
    interceptRequest ⟨"cid", "cs"⟩ (fun _ => .error ()) 0 0 ⟨none, none, none⟩
        ⟨none, false⟩ = (⟨none, false⟩, ⟨none, none, none⟩, 0) ∧
    interceptRequest ⟨"cid", "cs"⟩ (fun _ => .error ()) 0 0 ⟨some "tok", none, none⟩
        ⟨none, false⟩ = (⟨some ("Bearer " ++ "tok"), false⟩, ⟨some "tok", none, none⟩, 0) ∧
    (∃ env : Envelope Nat,
      ((fun _ => SendResult.success (⟨true, 42, none, none⟩ : Envelope Nat)) 0 =
          SendResult.success env ∨
        (fun _ => SendResult.success (⟨true, 42, none, none⟩ : Envelope Nat)) (0 + 1) =
          SendResult.success env) ∧
      env.success = true ∧ 42 = env.data) := by
  refine ⟨?_, ?_, ?_⟩
  · exact auth_header_attachment.1 ⟨"cid", "cs"⟩ (fun _ => .error ()) 0 0 ⟨none, none, none⟩
      ⟨none, false⟩ .noAccessToken ⟨none, none, none⟩ 0 rfl
  · exact auth_header_attachment.2.1 ⟨"cid", "cs"⟩ (fun _ => .error ()) 0 0
      ⟨some "tok", none, none⟩ ⟨none, false⟩ "tok" ⟨some "tok", none, none⟩ 0 rfl
  · exact auth_header_attachment.2.2 Nat ⟨"cid", "cs"⟩ (fun _ => .error ())
      (fun _ => SendResult.success (⟨true, 42, none, none⟩ : Envelope Nat)) 1 0 0 0
      ⟨none, none, none⟩ 42 ⟨none, none, none⟩ 0 1 rfl

/-! ### Helper lemmas about form-encoding, for the wire-body claim -/

lemma hexDigit_ne (n : Nat) : hexDigit n ≠ '=' ∧ hexDigit n ≠ '&' := by
  constructor <;> (unfold hexDigit; split <;> decide)

lemma encodeChar_ne (c : Char) : ∀ d ∈ encodeChar c, d ≠ '=' ∧ d ≠ '&' := by
  intro d hd
  unfold encodeChar at hd
  split at hd
  · simp only [List.mem_singleton] at hd
    subst hd
    exact ⟨by decide, by decide⟩
  · split at hd
    · simp only [List.mem_singleton] at hd
      subst hd
      rename_i hsafe
      constructor
      · rintro rfl
        exact absurd hsafe (by decide)
      · rintro rfl
        exact absurd hsafe (by decide)
    · rcases List.mem_flatMap.mp hd with ⟨b, -, hb⟩
      simp only [List.mem_cons, List.not_mem_nil, or_false] at hb
      rcases hb with rfl | rfl | rfl
      · exact ⟨by decide, by decide⟩
      · exact hexDigit_ne _
      · exact hexDigit_ne _

lemma eq_not_mem_encodeStr (s : String) : '=' ∉ encodeStr s := by
  intro hmem
  rcases List.mem_flatMap.mp hmem with ⟨c, -, hc⟩
  exact (encodeChar_ne c '=' hc).1 rfl

lemma amp_not_mem_encodeStr (s : String) : '&' ∉ encodeStr s := by
  intro hmem
  rcases List.mem_flatMap.mp hmem with ⟨c, -, hc⟩
  exact (encodeChar_ne c '&' hc).2 rfl

/-- A contiguous part of `a ++ b` lies in `a`, lies in `b`, or straddles the
boundary, splitting into a nonempty tail of `a` and a nonempty head of `b`. -/
lemma middle_of_append_cases {α : Type} {t a b : List α} (h : t <:+: a ++ b) :
    t <:+: a ∨ t <:+: b ∨
      ∃ t₁ t₂, t = t₁ ++ t₂ ∧ t₁ ≠ [] ∧ t₂ ≠ [] ∧ t₁ <:+ a ∧ t₂ <+: b := by
  obtain ⟨s, u, hsu⟩ := h
  by_cases h1 : s.length + t.length ≤ a.length
  · left
    have hta : (s ++ t ++ u).take a.length = a := by rw [hsu]; exact List.take_left a b
    rw [List.append_assoc, List.take_append_eq_append_take,
      List.take_of_length_le (show s.length ≤ a.length by omega),
      List.take_append_eq_append_take,
      List.take_of_length_le (show t.length ≤ a.length - s.length by omega)] at hta
    refine ⟨s, u.take (a.length - s.length - t.length), ?_⟩
    rw [List.append_assoc]
    exact hta
  · by_cases h2 : a.length ≤ s.length
    · right; left
      have htb : (s ++ t ++ u).drop a.length = b := by rw [hsu]; exact List.drop_left a b
      rw [List.append_assoc, List.drop_append_eq_append_drop,
        show a.length - s.length = 0 by omega, List.drop_zero] at htb
      refine ⟨s.drop a.length, u, ?_⟩
      rw [List.append_assoc]
      exact htb
    · right; right
      push_neg at h1 h2
      refine ⟨t.take (a.length - s.length), t.drop (a.length - s.length),
        (List.take_append_drop _ t).symm, ?_, ?_, ?_, ?_⟩
      · intro hnil
        have := congrArg List.length hnil
        simp only [List.length_take, List.length_nil] at this
        omega
      · intro hnil
        have := congrArg List.length hnil
        simp only [List.length_drop, List.length_nil] at this
        omega
      · refine ⟨s, ?_⟩
        have hta : (s ++ t ++ u).take a.length = a := by rw [hsu]; exact List.take_left a b
        rw [List.append_assoc, List.take_append_eq_append_take,
          List.take_of_length_le (show s.length ≤ a.length by omega),
          List.take_append_eq_append_take,
          show a.length - s.length - t.length = 0 by omega, List.take_zero,
          List.append_nil] at hta
        exact hta
      · refine ⟨u, ?_⟩
        have htb : (s ++ t ++ u).drop a.length = b := by rw [hsu]; exact List.drop_left a b
        rw [List.append_assoc, List.drop_append_eq_append_drop,
          List.drop_eq_nil_of_le (show s.length ≤ a.length by omega),
          List.drop_append_eq_append_drop,
          show a.length - s.length - t.length = 0 by omega, List.drop_zero,
          List.nil_append] at htb
        exact htb

/-- The nonempty left part of a split of `"scope="` is one of its five proper
prefixes. -/
lemma scope_split_cases {t₁ t₂ : List Char}
    (ht : "scope=".toList = t₁ ++ t₂) (h1 : t₁ ≠ []) (h2 : t₂ ≠ []) :
    t₁ = ("scope=".toList).take 1 ∨ t₁ = ("scope=".toList).take 2 ∨
    t₁ = ("scope=".toList).take 3 ∨ t₁ = ("scope=".toList).take 4 ∨
    t₁ = ("scope=".toList).take 5 := by
  have hlen : t₁.length + t₂.length = 6 := by
    have h6 : ("scope=".toList).length = 6 := rfl
    have := congrArg List.length ht
    rw [h6, List.length_append] at this
    omega
  have h1p : 0 < t₁.length := List.length_pos.mpr h1
  have h2p : 0 < t₂.length := List.length_pos.mpr h2
  have htake : t₁ = ("scope=".toList).take t₁.length := by
    rw [ht, List.take_left]
  have hc : t₁.length = 1 ∨ t₁.length = 2 ∨ t₁.length = 3 ∨ t₁.length = 4 ∨
      t₁.length = 5 := by omega
  rcases hc with h | h | h | h | h <;> rw [h] at htake <;> tauto

/-- `scope=` does not occur in
`grant_type=client_credentials&client_id=<e1>&client_secret=<e2>` when the
encoded values `e1`, `e2` contain no `=` (and `e1` no `&`). -/
lemma scope_absent_shape (e1 e2 : List Char)
    (h1eq : '=' ∉ e1) (h2eq : '=' ∉ e2) :
    ¬ ("scope=".toList <:+:
       ("grant_type=client_credentials&client_id=".toList ++
         (e1 ++ ("&client_secret=".toList ++ e2)))) := by
  intro h
  rcases middle_of_append_cases h with hC1 | h'
  · exact absurd hC1 (by decide)
  rcases h' with h' | ⟨t₁, t₂, ht, ht1ne, ht2ne, ht1, ht2⟩
  · rcases middle_of_append_cases h' with hE1 | h''
    · exact h1eq (hE1.subset (by decide))
    rcases h'' with h'' | ⟨t₁, t₂, ht, ht1ne, ht2ne, ht1, ht2⟩
    · rcases middle_of_append_cases h'' with hC2 | h'''
      · exact absurd hC2 (by decide)
      rcases h''' with hE2 | ⟨t₁, t₂, ht, ht1ne, ht2ne, ht1, ht2⟩
      · exact h2eq (hE2.subset (by decide))
      · rcases scope_split_cases ht ht1ne ht2ne with hh | hh | hh | hh | hh <;>
          subst hh <;> exact absurd ht1 (by decide)
    · obtain ⟨post, hpost⟩ := ht2
      rcases t₂ with _ | ⟨c, t₂'⟩
      · exact absurd rfl ht2ne
      · have hc : c = '&' := by
          have hh := congrArg List.head? hpost
          rw [show ("&client_secret=".toList ++ e2).head? = some '&' from rfl] at hh
          simpa using hh
        have hmem : c ∈ "scope=".toList := by
          rw [ht]
          exact List.mem_append_right _ (List.mem_cons_self _ _)
        rw [hc] at hmem
        exact absurd hmem (by decide)
  · rcases scope_split_cases ht ht1ne ht2ne with hh | hh | hh | hh | hh <;>
      subst hh <;> exact absurd ht1 (by decide)

/-- The encoded client-credentials body with no scope, in boundary form. -/
lemma clientCredentials_body_shape (cfg : Config) :
    encodeForm (clientCredentialsParams cfg none) =
      "grant_type=client_credentials&client_id=".toList ++
        (encodeStr cfg.clientId ++
          ("&client_secret=".toList ++ encodeStr cfg.clientSecret)) := by
  have h : encodeForm (clientCredentialsParams cfg none) =
      "grant_type=client_credentials&client_id=".toList ++
        (encodeStr cfg.clientId ++
          ("&client_secret=".toList ++ (encodeStr cfg.clientSecret ++ []))) := rfl
  rw [h, List.append_nil]

/-- C8: for each of the four grant operations the form-encoded wire body
contains exactly the fields specified for that grant (always including
`client_id` and `client_secret`), with the optional `scope` field present
iff the caller supplied a truthy (non-empty) value; in particular
`authenticateWithClientCredentials` called with no scope argument produces
a body that nowhere contains the substring `scope=`, whatever the client
id and secret are. -/
theorem grant_wire_bodies :
    (∀ (cfg : Config) (code redirectUri : String) (now : Int) (st : OAuthState)
        (wire : TokenWireResult),
      (exchangeAuthorizationCode cfg wire code redirectUri now st).1 =
        [("grant_type", "authorization_code"), ("code", code),
         ("redirect_uri", redirectUri), ("client_id", cfg.clientId),
         ("client_secret", cfg.clientSecret)]) ∧
    (∀ (cfg : Config) (u p : String) (sc : Option String) (now : Int) (st : OAuthState)
        (wire : TokenWireResult),
      (authenticateWithPassword cfg wire u p sc now st).1 =
        [("grant_type", "password"), ("username", u), ("password", p),
         ("client_id", cfg.clientId), ("client_secret", cfg.clientSecret)] ++
          (if jsTruthyOpt sc then [("scope", sc.getD "")] else [])) ∧
    (∀ (cfg : Config) (sc : Option String) (now : Int) (st : OAuthState)
        (wire : TokenWireResult),
      (authenticateWithClientCredentials cfg wire sc now st).1 =
        [("grant_type", "client_credentials"), ("client_id", cfg.clientId),
         ("client_secret", cfg.clientSecret)] ++
          (if jsTruthyOpt sc then [("scope", sc.getD "")] else [])) ∧
    (∀ (cfg : Config) (rt : String),
      refreshParams cfg rt =
        [("grant_type", "refresh_token"), ("refresh_token", rt),
         ("client_id", cfg.clientId), ("client_secret", cfg.clientSecret)]) ∧
    (∀ (cfg : Config) (sc : Option String) (now : Int) (st : OAuthState)
        (wire : TokenWireResult),
      ((authenticateWithClientCredentials cfg wire sc now st).1.map Prod.fst) =
        ["grant_type", "client_id", "client_secret"] ++
          (if jsTruthyOpt sc then ["scope"] else [])) ∧
    (∀ (cfg : Config) (u p : String) (sc : Option String) (now : Int) (st : OAuthState)
        (wire : TokenWireResult),
      ((authenticateWithPassword cfg wire u p sc now st).1.map Prod.fst) =
        ["grant_type", "username", "password", "client_id", "client_secret"] ++
          (if jsTruthyOpt sc then ["scope"] else [])) ∧
    (∀ (cfg : Config) (now : Int) (st : OAuthState) (wire : TokenWireResult),
      containsSub "scope=".toList
        (encodeForm (authenticateWithClientCredentials cfg wire none now st).1) = false) := by
  refine ⟨fun _ _ _ _ _ _ => rfl, fun _ _ _ _ _ _ _ => rfl, fun _ _ _ _ _ => rfl,
    fun _ _ => rfl, ?_, ?_, ?_⟩
  · intro cfg sc now st wire
    by_cases hsc : jsTruthyOpt sc <;>
      simp [authenticateWithClientCredentials, clientCredentialsParams, hsc]
  · intro cfg u p sc now st wire
    by_cases hsc : jsTruthyOpt sc <;>
      simp [authenticateWithPassword, passwordParams, hsc]
  · intro cfg now st wire
    show containsSub "scope=".toList (encodeForm (clientCredentialsParams cfg none)) = false
    rw [clientCredentials_body_shape cfg]
    exact decide_eq_false (scope_absent_shape (encodeStr cfg.clientId)
      (encodeStr cfg.clientSecret) (eq_not_mem_encodeStr _) (eq_not_mem_encodeStr _))

end LearnWorlds
